import Mathlib

/-!
Shallow embedding of `src/lib.rs` of `dynamic-components-experiments`:
a deferred entity-construction facility over the Bevy ECS.

The source file defines the `ComponentStrategy` enum, a direct
exclusive-world-access spawner, and the preferred pattern: an
`EntityCommands` extension `spawn_dynamic_bundle` generic over a `Config`
type plus an applier closure (`my_dynamic_builder` being the reference
applier).  Rust `&mut` mutation is embedded as explicit state passing:
each operation consumes a state value and returns the updated one.

The entity/component store, the deferred command queue internals and the
flush step are external collaborators (Bevy), not code of this repository;
they are modelled from the spec (sections 3, 4.3 and 6) and each such
definition's doc comment says so.
-/

/-- The component kinds of the program: the unit components `A` and `B`
declared at the top of `src/lib.rs`. -/
inductive ComponentKind where
  | A
  | B
deriving DecidableEq, Repr

/-- The `ComponentStrategy` enum of `src/lib.rs`: which components to
attach to the entity being built. -/
inductive ComponentStrategy where
  | A
  | B
  | AAndB
deriving DecidableEq, Repr

/-- Modelled from the spec: a Mutation Request is a recorded intent to
mutate the store ("attach component payload P to entity E"), and minting a
handle also records the deferred creation of the entity, applied at flush.
`A` and `B` are unit components, so their attaches carry the unit payload
`0`; the payload field exists because the spec's store interface
`set_component(EntityHandle, ComponentKind, Payload)` carries one. -/
inductive Request where
  | spawn (entity : Nat)
  | attach (entity : Nat) (kind : ComponentKind) (payload : Nat)
deriving DecidableEq, Repr

/-- Modelled from the spec: the external entity/component store, consumed
through `create_entity` / `set_component` / `has_component` (spec section 6).
`live` lists created entities; `comps` is the component table. -/
structure Store where
  live : List Nat
  comps : List (Nat × ComponentKind × Nat)
deriving DecidableEq, Repr

/-- Modelled from the spec: the empty store tests flush into. -/
def Store.empty : Store := ⟨[], []⟩

/-- Modelled from the spec: `create_entity` makes the entity exist in the
store (with no components). -/
def Store.create_entity (s : Store) (e : Nat) : Store :=
  { s with live := s.live ++ [e] }

/-- Modelled from the spec: `set_component` overwrites any previous
component of the same kind on the same entity ("later attach of the same
component kind overwrites earlier"). -/
def Store.set_component (s : Store) (e : Nat) (k : ComponentKind) (p : Nat) : Store :=
  { s with comps :=
      (s.comps.filter fun x => !(x.1 == e && x.2.1 == k)) ++ [(e, k, p)] }

/-- Modelled from the spec: read a component's payload by entity and kind. -/
def Store.get_component (s : Store) (e : Nat) (k : ComponentKind) : Option Nat :=
  (s.comps.find? fun x => x.1 == e && x.2.1 == k).map fun x => x.2.2

/-- Modelled from the spec: `has_component(EntityHandle, ComponentKind)`. -/
def Store.has_component (s : Store) (e : Nat) (k : ComponentKind) : Bool :=
  (s.get_component e k).isSome

/-- Modelled from the spec: whether the entity exists in the store. -/
def Store.has_entity (s : Store) (e : Nat) : Bool :=
  s.live.contains e

/-- Modelled from the spec: how many components of kind `k` entity `e`
holds (used to state "exactly one component, not two"). -/
def Store.countKind (s : Store) (e : Nat) (k : ComponentKind) : Nat :=
  (s.comps.filter fun x => x.1 == e && x.2.1 == k).length

/-- Modelled from the spec: apply one Mutation Request against the store. -/
def Store.applyReq (s : Store) : Request → Store
  | .spawn e => s.create_entity e
  | .attach e k p => s.set_component e k p

/-- The deferred command queue behind Bevy's `Commands`: an ordered,
appendable list of requests plus the next fresh entity id.  Modelled from
the spec (section 3, Deferred Command Queue). -/
structure Commands where
  nextId : Nat
  queue : List Request
deriving DecidableEq, Repr

/-- Modelled from the spec: a fresh queue with no pending requests. -/
def Commands.fresh : Commands := ⟨0, []⟩

/-- The Entity Builder: Bevy's `EntityCommands`, a cursor bound to one
entity and one command queue.  The Rust value holds `&mut Commands`; the
embedding carries the `Commands` state by value. -/
structure EntityCommands where
  entity : Nat
  cmds : Commands
deriving DecidableEq, Repr

/-- `Commands::spawn_empty`: mints a fresh entity handle, records its
deferred creation in the queue, and returns the builder scoped to it. -/
def Commands.spawn_empty (c : Commands) : EntityCommands :=
  ⟨c.nextId, ⟨c.nextId + 1, c.queue ++ [.spawn c.nextId]⟩⟩

/-- `EntityCommands::insert`: appends one attach request for the bound
entity and returns the builder for chaining (`&mut Self` in Rust). -/
def EntityCommands.insert (self : EntityCommands) (k : ComponentKind) (p : Nat) :
    EntityCommands :=
  ⟨self.entity, ⟨self.cmds.nextId, self.cmds.queue ++ [.attach self.entity k p]⟩⟩

/-- `EntityCommands::id`: the bound entity handle. -/
def EntityCommands.id (self : EntityCommands) : Nat :=
  self.entity

/-- The `spawn_dynamic_bundle` extension method of the
`entity_commands_closure_extension` test (lib.rs lines 203-212): invoke the
applier `f` on `config` and the builder itself, then return the builder
(`f(config, self); self`).  Under state passing, "return self" returns the
builder state as mutated by `f`. -/
def spawn_dynamic_bundle {Config : Type} (self : EntityCommands) (config : Config)
    (f : Config → EntityCommands → EntityCommands) : EntityCommands :=
  f config self

/-- `my_dynamic_builder` (lib.rs lines 214-220): the reference applier,
matching the strategy and attaching `A`, `B`, or `A` then `B`. -/
def my_dynamic_builder (strategy : ComponentStrategy) (commands : EntityCommands) :
    EntityCommands :=
  match strategy with
  | .A => commands.insert .A 0
  | .B => commands.insert .B 0
  | .AAndB => (commands.insert .A 0).insert .B 0

/-- `my_system` of the `entity_commands_closure_extension` test (lib.rs
lines 224-233): three spawns, each built via `spawn_dynamic_bundle` with
`my_dynamic_builder`. -/
def my_system (commands : Commands) : Commands :=
  let entity_a := commands.spawn_empty
  let c1 := (spawn_dynamic_bundle entity_a ComponentStrategy.A my_dynamic_builder).cmds
  let entity_b := c1.spawn_empty
  let c2 := (spawn_dynamic_bundle entity_b ComponentStrategy.B my_dynamic_builder).cmds
  let entity_a_and_b := c2.spawn_empty
  (spawn_dynamic_bundle entity_a_and_b ComponentStrategy.AAndB my_dynamic_builder).cmds

/-- Modelled from the spec: `flush` applies every pending request, in
append order, against the store and clears the queue (spec section 4.3). -/
def flush (c : Commands) (s : Store) : Store × Commands :=
  (c.queue.foldl Store.applyReq s, ⟨c.nextId, []⟩)

/-- The `World` of the exclusive-access variant: the live store plus a
fresh-id counter.  Mutated directly, no deferral. -/
structure World where
  nextId : Nat
  store : Store
deriving DecidableEq, Repr

/-- `World::new()`. -/
def World.new : World := ⟨0, Store.empty⟩

/-- Bevy's `EntityWorldMut`: a cursor with direct (immediate) write access
to the world, bound to one entity. -/
structure EntityWorldMut where
  entity : Nat
  world : World
deriving DecidableEq, Repr

/-- `World::spawn_empty`: creates the entity in the store immediately. -/
def World.spawn_empty (w : World) : EntityWorldMut :=
  ⟨w.nextId, ⟨w.nextId + 1, w.store.create_entity w.nextId⟩⟩

/-- `EntityWorldMut::insert`: sets the component in the store immediately. -/
def EntityWorldMut.insert (self : EntityWorldMut) (k : ComponentKind) (p : Nat) :
    EntityWorldMut :=
  ⟨self.entity, ⟨self.world.nextId, self.world.store.set_component self.entity k p⟩⟩

/-- `EntityWorldMut::id`. -/
def EntityWorldMut.id (self : EntityWorldMut) : Nat :=
  self.entity

/-- `spawn_bundle_exclusive_world_access` (lib.rs lines 62-73): spawn an
empty entity, then insert per strategy, returning the entity id.  The Rust
function mutates `world` through `&mut`; the embedding also returns the
updated world. -/
def spawn_bundle_exclusive_world_access (world : World) (strategy : ComponentStrategy) :
    Nat × World :=
  let entity_world_mut := world.spawn_empty
  match strategy with
  | .A => ((entity_world_mut.insert .A 0).id, (entity_world_mut.insert .A 0).world)
  | .B => ((entity_world_mut.insert .B 0).id, (entity_world_mut.insert .B 0).world)
  | .AAndB =>
      (((entity_world_mut.insert .A 0).insert .B 0).id,
        ((entity_world_mut.insert .A 0).insert .B 0).world)

/-- The component set a strategy implies: does it include `A`?  (Spec
section 8, Strategy coverage.) -/
def impliedA : ComponentStrategy → Bool
  | .A => true
  | .B => false
  | .AAndB => true

/-- The component set a strategy implies: does it include `B`?  (Spec
section 8, Strategy coverage.) -/
def impliedB : ComponentStrategy → Bool
  | .A => false
  | .B => true
  | .AAndB => true

/-- A custom applier over `Config = Nat` (spec section 8, Applier
genericity: "a Config type unrelated to Strategy, e.g., an integer
count"): attach `A` for an even count, `B` for an odd one, with the count
as payload. -/
def parityApplier (n : Nat) (ec : EntityCommands) : EntityCommands :=
  if n % 2 == 0 then ec.insert .A n else ec.insert .B n

/-- The attach requests `my_dynamic_builder` makes for one entity under
each strategy (specification of its append behaviour). -/
def attachReqs (e : Nat) : ComponentStrategy → List Request
  | .A => [.attach e .A 0]
  | .B => [.attach e .B 0]
  | .AAndB => [.attach e .A 0, .attach e .B 0]

/-- Run one full build (spawn, then `spawn_dynamic_bundle` with
`my_dynamic_builder`) per strategy in the list, all on one queue: the
shape of `my_system` generalised to any interleaving of call sites. -/
def buildStrategies : Commands → List ComponentStrategy → Commands
  | c, [] => c
  | c, s :: rest =>
      buildStrategies (spawn_dynamic_bundle c.spawn_empty s my_dynamic_builder).cmds rest

/-- The request sequence `buildStrategies` appends, entity ids starting
at `n`. -/
def reqsFor : Nat → List ComponentStrategy → List Request
  | _, [] => []
  | n, s :: rest => (Request.spawn n :: attachReqs n s) ++ reqsFor (n + 1) rest

/-- One step of the "last attach wins" scan for entity `e`, kind `k`. -/
def attachStep (e : Nat) (k : ComponentKind) (acc : Option Nat) : Request → Option Nat
  | .attach e2 k2 p => if e2 = e ∧ k2 = k then some p else acc
  | .spawn _ => acc

/-- The payload of the last attach request for `(e, k)` in the list, if
any. -/
def lastAttach (rs : List Request) (e : Nat) (k : ComponentKind) : Option Nat :=
  rs.foldl (attachStep e k) none

/-- The entities whose deferred creation a request list records. -/
def spawnsOf (rs : List Request) : List Nat :=
  rs.filterMap fun r =>
    match r with
    | .spawn e => some e
    | .attach _ _ _ => none

/-! ### Lemmas about the store and the flushed queue -/

theorem find?_filter_not {α : Type} (p : α → Bool) (l : List α) :
    (l.filter fun x => !(p x)).find? p = none := by
  induction l with
  | nil => rfl
  | cons a l ih =>
    by_cases hp : p a = true
    · simp [List.filter_cons, hp, ih]
    · simp only [Bool.not_eq_true] at hp
      simp [List.filter_cons, hp, List.find?_cons, ih]

theorem find?_filter_keep {α : Type} (p q : α → Bool) (l : List α)
    (h : ∀ x, p x = true → q x = true) : (l.filter q).find? p = l.find? p := by
  induction l with
  | nil => rfl
  | cons a l ih =>
    by_cases hq : q a = true
    · by_cases hp : p a = true
      · simp [List.filter_cons, hq, List.find?_cons, hp]
      · simp only [Bool.not_eq_true] at hp
        simp [List.filter_cons, hq, List.find?_cons, hp, ih]
    · have hp : p a = false := by
        cases hpa : p a
        · rfl
        · exact absurd (h a hpa) hq
      simp only [Bool.not_eq_true] at hq
      simp [List.filter_cons, hq, List.find?_cons, hp, ih]

theorem get_component_set_same (s : Store) (e : Nat) (k : ComponentKind) (p : Nat) :
    (s.set_component e k p).get_component e k = some p := by
  unfold Store.set_component Store.get_component
  rw [List.find?_append, find?_filter_not]
  simp

theorem get_component_set_other (s : Store) (e2 e : Nat) (k2 k : ComponentKind) (p : Nat)
    (h : ¬(e2 = e ∧ k2 = k)) :
    (s.set_component e2 k2 p).get_component e k = s.get_component e k := by
  unfold Store.set_component Store.get_component
  rw [List.find?_append, find?_filter_keep]
  · have hne : ((e2 == e) && (k2 == k)) = false := by
      rcases Decidable.not_and_iff_or_not.mp h with h1 | h1 <;> simp [h1]
    simp [List.find?_cons, hne]
  · intro x hx
    simp only [Bool.and_eq_true, beq_iff_eq] at hx
    have hne : ((x.1 == e2) && (x.2.1 == k2)) = false := by
      rcases Decidable.not_and_iff_or_not.mp h with h1 | h1
      · have hb : (x.1 == e2) = false := by
          simp only [hx.1, beq_eq_false_iff_ne, ne_eq]
          exact fun hh => h1 hh.symm
        simp [hb]
      · have hb : (x.2.1 == k2) = false := by
          simp only [hx.2, beq_eq_false_iff_ne, ne_eq]
          exact fun hh => h1 hh.symm
        simp [hb]
    simp [hne]

theorem attachStep_or (e : Nat) (k : ComponentKind) (acc : Option Nat) (r : Request) :
    attachStep e k acc r = (attachStep e k none r).or acc := by
  cases r with
  | spawn e2 => rfl
  | attach e2 k2 p =>
    by_cases h : e2 = e ∧ k2 = k
    · simp [attachStep, h]
    · simp [attachStep, h]

theorem get_component_applyReq (s : Store) (r : Request) (e : Nat) (k : ComponentKind) :
    (s.applyReq r).get_component e k = (attachStep e k none r).or (s.get_component e k) := by
  cases r with
  | spawn e2 => rfl
  | attach e2 k2 p =>
    by_cases h : e2 = e ∧ k2 = k
    · obtain ⟨rfl, rfl⟩ := h
      simp [Store.applyReq, attachStep, get_component_set_same]
    · simp [Store.applyReq, attachStep, h, get_component_set_other _ _ _ _ _ _ h]

theorem foldl_attachStep_acc (e : Nat) (k : ComponentKind) (rs : List Request)
    (acc : Option Nat) :
    rs.foldl (attachStep e k) acc = (lastAttach rs e k).or acc := by
  induction rs generalizing acc with
  | nil => simp [lastAttach]
  | cons r rs ih =>
    show rs.foldl (attachStep e k) (attachStep e k acc r) = _
    rw [ih]
    have h2 : lastAttach (r :: rs) e k = (lastAttach rs e k).or (attachStep e k none r) := by
      show rs.foldl (attachStep e k) (attachStep e k none r) = _
      rw [ih]
    rw [h2, Option.or_assoc, attachStep_or]

theorem lastAttach_append (xs ys : List Request) (e : Nat) (k : ComponentKind) :
    lastAttach (xs ++ ys) e k = (lastAttach ys e k).or (lastAttach xs e k) := by
  unfold lastAttach
  rw [List.foldl_append, foldl_attachStep_acc]
  rfl

theorem get_component_foldl (rs : List Request) (s : Store) (e : Nat) (k : ComponentKind) :
    (rs.foldl Store.applyReq s).get_component e k
      = (lastAttach rs e k).or (s.get_component e k) := by
  induction rs generalizing s with
  | nil => simp [lastAttach]
  | cons r rs ih =>
    show (rs.foldl Store.applyReq (s.applyReq r)).get_component e k = _
    rw [ih, get_component_applyReq]
    have h2 : lastAttach (r :: rs) e k = (lastAttach rs e k).or (attachStep e k none r) := by
      show rs.foldl (attachStep e k) (attachStep e k none r) = _
      rw [foldl_attachStep_acc]
    rw [h2, Option.or_assoc]

theorem live_foldl (rs : List Request) (s : Store) :
    (rs.foldl Store.applyReq s).live = s.live ++ spawnsOf rs := by
  induction rs generalizing s with
  | nil => simp [spawnsOf]
  | cons r rs ih =>
    show (rs.foldl Store.applyReq (s.applyReq r)).live = _
    rw [ih]
    cases r with
    | spawn e2 => simp [Store.applyReq, Store.create_entity, spawnsOf, List.filterMap_cons]
    | attach e2 k2 p => simp [Store.applyReq, Store.set_component, spawnsOf, List.filterMap_cons]

/-! ### Lemmas about the queue a sequence of builds appends -/

theorem spawn_dynamic_bundle_my_builder_queue (s : ComponentStrategy) (ec : EntityCommands) :
    (spawn_dynamic_bundle ec s my_dynamic_builder).cmds.queue
        = ec.cmds.queue ++ attachReqs ec.entity s
      ∧ (spawn_dynamic_bundle ec s my_dynamic_builder).cmds.nextId = ec.cmds.nextId := by
  cases s <;>
    simp [spawn_dynamic_bundle, my_dynamic_builder, EntityCommands.insert, attachReqs,
      List.append_assoc]

theorem buildStrategies_queue (ss : List ComponentStrategy) (c : Commands) :
    (buildStrategies c ss).queue = c.queue ++ reqsFor c.nextId ss
      ∧ (buildStrategies c ss).nextId = c.nextId + ss.length := by
  induction ss generalizing c with
  | nil => simp [buildStrategies, reqsFor]
  | cons s rest ih =>
    have h1 := spawn_dynamic_bundle_my_builder_queue s c.spawn_empty
    show (buildStrategies (spawn_dynamic_bundle c.spawn_empty s my_dynamic_builder).cmds
        rest).queue = _ ∧ _
    rcases ih (spawn_dynamic_bundle c.spawn_empty s my_dynamic_builder).cmds with ⟨hq, hn⟩
    constructor
    · rw [hq, h1.1, h1.2]
      simp [Commands.spawn_empty, reqsFor, List.append_assoc]
    · show (buildStrategies (spawn_dynamic_bundle c.spawn_empty s my_dynamic_builder).cmds
          rest).nextId = _
      rw [hn, h1.2]
      simp [Commands.spawn_empty]
      omega

theorem reqsFor_append (xs ys : List ComponentStrategy) (n : Nat) :
    reqsFor n (xs ++ ys) = reqsFor n xs ++ reqsFor (n + xs.length) ys := by
  induction xs generalizing n with
  | nil => simp [reqsFor]
  | cons s rest ih =>
    show (Request.spawn n :: attachReqs n s) ++ reqsFor (n + 1) (rest ++ ys) = _
    rw [ih (n + 1)]
    have harith : n + 1 + rest.length = n + (s :: rest).length := by
      simp
      omega
    rw [harith]
    simp [reqsFor, List.append_assoc]

theorem lastAttach_attachReqs_ne (n e : Nat) (k : ComponentKind) (s : ComponentStrategy)
    (h : e ≠ n) :
    lastAttach (Request.spawn n :: attachReqs n s) e k = none := by
  have hcond : ∀ k2 : ComponentKind, ¬(n = e ∧ k2 = k) := fun k2 hh => h hh.1.symm
  cases s <;> simp [lastAttach, attachReqs, attachStep, hcond]

theorem lastAttach_reqsFor_lt (ss : List ComponentStrategy) (n e : Nat) (k : ComponentKind)
    (h : e < n) : lastAttach (reqsFor n ss) e k = none := by
  induction ss generalizing n with
  | nil => rfl
  | cons s rest ih =>
    show lastAttach ((Request.spawn n :: attachReqs n s) ++ reqsFor (n + 1) rest) e k = none
    rw [lastAttach_append, ih (n + 1) (by omega),
      lastAttach_attachReqs_ne n e k s (by omega)]
    rfl

theorem lastAttach_reqsFor_ge (ss : List ComponentStrategy) (n e : Nat) (k : ComponentKind)
    (h : n + ss.length ≤ e) : lastAttach (reqsFor n ss) e k = none := by
  induction ss generalizing n with
  | nil => rfl
  | cons s rest ih =>
    have h2 : n + (rest.length + 1) ≤ e := by simpa using h
    show lastAttach ((Request.spawn n :: attachReqs n s) ++ reqsFor (n + 1) rest) e k = none
    rw [lastAttach_append, ih (n + 1) (by omega),
      lastAttach_attachReqs_ne n e k s (by omega)]
    rfl

theorem lastAttach_own_segment_A (e : Nat) (S : ComponentStrategy) :
    lastAttach (Request.spawn e :: attachReqs e S) e .A
      = (if impliedA S then some 0 else none) := by
  cases S <;> simp [lastAttach, attachReqs, attachStep, impliedA]

theorem lastAttach_own_segment_B (e : Nat) (S : ComponentStrategy) :
    lastAttach (Request.spawn e :: attachReqs e S) e .B
      = (if impliedB S then some 0 else none) := by
  cases S <;> simp [lastAttach, attachReqs, attachStep, impliedB]

theorem spawnsOf_append (xs ys : List Request) :
    spawnsOf (xs ++ ys) = spawnsOf xs ++ spawnsOf ys := by
  simp [spawnsOf]

theorem mem_spawnsOf_reqsFor (ss : List ComponentStrategy) (n i : Nat) (h : i < ss.length) :
    n + i ∈ spawnsOf (reqsFor n ss) := by
  induction ss generalizing n i with
  | nil => exact absurd h (by simp)
  | cons s rest ih =>
    show n + i ∈ spawnsOf ((Request.spawn n :: attachReqs n s) ++ reqsFor (n + 1) rest)
    rw [spawnsOf_append]
    have hseg : spawnsOf (Request.spawn n :: attachReqs n s) = [n] := by
      cases s <;> rfl
    rw [hseg]
    cases i with
    | zero => simp
    | succ j =>
      have hj : j < rest.length := by simpa using h
      have hmem := ih (n + 1) j hj
      have harith : n + (j + 1) = n + 1 + j := by omega
      rw [harith]
      simp [hmem]

theorem filter_filter_not {α : Type} (p : α → Bool) (l : List α) :
    (l.filter fun x => !(p x)).filter p = [] := by
  induction l with
  | nil => rfl
  | cons a l ih =>
    by_cases hp : p a = true
    · simp [List.filter_cons, hp, ih]
    · simp only [Bool.not_eq_true] at hp
      simp [List.filter_cons, hp, ih]

theorem countKind_set_same (s : Store) (e : Nat) (k : ComponentKind) (p : Nat) :
    (s.set_component e k p).countKind e k = 1 := by
  unfold Store.set_component Store.countKind
  rw [List.filter_append, filter_filter_not]
  simp

/-! ### The claims -/

/-- C1: invoked on a freshly spawned builder and flushed, the reference
applier `my_dynamic_builder` attaches exactly the component set its
strategy implies: `A` yields `{A}` only, `B` yields `{B}` only, and
`AAndB` yields `{A, B}`, with `AAndB` appending the attach of `A` before
the attach of `B`. -/
theorem my_dynamic_builder_strategy_coverage :
    ((flush (spawn_dynamic_bundle Commands.fresh.spawn_empty .A my_dynamic_builder).cmds
        Store.empty).1.has_component 0 .A = true
      ∧ (flush (spawn_dynamic_bundle Commands.fresh.spawn_empty .A my_dynamic_builder).cmds
        Store.empty).1.has_component 0 .B = false)
    ∧ ((flush (spawn_dynamic_bundle Commands.fresh.spawn_empty .B my_dynamic_builder).cmds
        Store.empty).1.has_component 0 .A = false
      ∧ (flush (spawn_dynamic_bundle Commands.fresh.spawn_empty .B my_dynamic_builder).cmds
        Store.empty).1.has_component 0 .B = true)
    ∧ ((flush (spawn_dynamic_bundle Commands.fresh.spawn_empty .AAndB my_dynamic_builder).cmds
        Store.empty).1.has_component 0 .A = true
      ∧ (flush (spawn_dynamic_bundle Commands.fresh.spawn_empty .AAndB my_dynamic_builder).cmds
        Store.empty).1.has_component 0 .B = true
      ∧ (spawn_dynamic_bundle Commands.fresh.spawn_empty .AAndB my_dynamic_builder).cmds.queue
        = [.spawn 0, .attach 0 .A 0, .attach 0 .B 0]) := by
  decide

/-- C2: `spawn_dynamic_bundle` invokes the applier exactly once, on the
given config and the builder it was called on, and returns that same
builder (its result is exactly one application of `f`, for every `f`; and
whenever the applier preserves the entity cursor, so does the call, so
chaining continues on the same entity). -/
theorem spawn_dynamic_bundle_applies_once (Config : Type) (config : Config)
    (f : Config → EntityCommands → EntityCommands) (self : EntityCommands) :
    spawn_dynamic_bundle self config f = f config self
    ∧ ((∀ c ec, (f c ec).entity = ec.entity) →
        (spawn_dynamic_bundle self config f).entity = self.entity) :=
  ⟨rfl, fun h => h config self⟩

theorem spawn_dynamic_bundle_applies_once_witness :
    spawn_dynamic_bundle Commands.fresh.spawn_empty ComponentStrategy.AAndB my_dynamic_builder
        = my_dynamic_builder ComponentStrategy.AAndB Commands.fresh.spawn_empty
    ∧ (spawn_dynamic_bundle Commands.fresh.spawn_empty ComponentStrategy.AAndB
        my_dynamic_builder).entity = Commands.fresh.spawn_empty.entity := by
  have h := spawn_dynamic_bundle_applies_once ComponentStrategy ComponentStrategy.AAndB
    my_dynamic_builder Commands.fresh.spawn_empty
  exact ⟨h.1, h.2 (fun c ec => by cases c <;> rfl)⟩

/-- C3: the `spawn_dynamic_bundle` seam is generic over the `Config` type,
not special-cased to `ComponentStrategy`: for every `Config` and applier,
the result is exactly the applier's own attaches; instantiated at
`Config = Nat` with a custom applier, flushing produces exactly the
component set that applier specifies. -/
theorem apply_dynamic_generic_over_config :
    (∀ (Config : Type) (config : Config) (f : Config → EntityCommands → EntityCommands)
        (self : EntityCommands), spawn_dynamic_bundle self config f = f config self)
    ∧ ((flush (spawn_dynamic_bundle Commands.fresh.spawn_empty 2 parityApplier).cmds
        Store.empty).1.has_component 0 .A = true
      ∧ (flush (spawn_dynamic_bundle Commands.fresh.spawn_empty 2 parityApplier).cmds
        Store.empty).1.has_component 0 .B = false)
    ∧ ((flush (spawn_dynamic_bundle Commands.fresh.spawn_empty 3 parityApplier).cmds
        Store.empty).1.has_component 0 .A = false
      ∧ (flush (spawn_dynamic_bundle Commands.fresh.spawn_empty 3 parityApplier).cmds
        Store.empty).1.has_component 0 .B = true) :=
  ⟨fun _ _ _ _ => rfl, by decide, by decide⟩

/-- C4: attaching the same component kind twice to a freshly spawned
entity before flush yields, after flush, exactly one component of that
kind on the entity, carrying the payload of the second attach
(last-write-wins), not two components. -/
theorem attach_twice_last_write_wins (n : Nat) (k : ComponentKind) (p1 p2 : Nat) :
    (flush (((Commands.mk n []).spawn_empty.insert k p1).insert k p2).cmds
        Store.empty).1.countKind n k = 1
    ∧ (flush (((Commands.mk n []).spawn_empty.insert k p1).insert k p2).cmds
        Store.empty).1.get_component n k = some p2 := by
  constructor
  · show (((Store.empty.create_entity n).set_component n k p1).set_component n k
        p2).countKind n k = 1
    exact countKind_set_same _ _ _ _
  · show (((Store.empty.create_entity n).set_component n k p1).set_component n k
        p2).get_component n k = some p2
    exact get_component_set_same _ _ _ _

/-- C6: spawning a builder and never attaching is valid: the builder is
minted with zero pending attach requests for its entity, and after flush
the entity exists in the store with neither component. -/
theorem empty_build_yields_empty_entity (n : Nat) :
    ((Commands.mk n []).spawn_empty.cmds.queue.filter fun r =>
        match r with
        | .attach _ _ _ => true
        | .spawn _ => false).length = 0
    ∧ (flush (Commands.mk n []).spawn_empty.cmds Store.empty).1.has_entity n = true
    ∧ (flush (Commands.mk n []).spawn_empty.cmds Store.empty).1.has_component n .A = false
    ∧ (flush (Commands.mk n []).spawn_empty.cmds Store.empty).1.has_component n .B = false := by
  refine ⟨rfl, ?_, rfl, rfl⟩
  show (Store.empty.create_entity n).has_entity n = true
  simp [Store.empty, Store.create_entity, Store.has_entity]

/-- C7: no core operation is fallible: minting a handle, appending an
attach request, invoking an applier, and flushing all return normally on
every input, with no error result anywhere in their types — each equals
the plain successor state exhibited here. -/
theorem core_operations_are_infallible :
    (∀ c : Commands,
        c.spawn_empty = ⟨c.nextId, ⟨c.nextId + 1, c.queue ++ [.spawn c.nextId]⟩⟩)
    ∧ (∀ (ec : EntityCommands) (k : ComponentKind) (p : Nat),
        ec.insert k p
          = ⟨ec.entity, ⟨ec.cmds.nextId, ec.cmds.queue ++ [.attach ec.entity k p]⟩⟩)
    ∧ (∀ (Config : Type) (config : Config) (f : Config → EntityCommands → EntityCommands)
        (self : EntityCommands), spawn_dynamic_bundle self config f = f config self)
    ∧ (∀ (c : Commands) (s : Store), (flush c s).2.queue = []) :=
  ⟨fun _ => rfl, fun _ _ _ => rfl, fun _ _ _ _ => rfl, fun _ _ => rfl⟩

/-- C9: for every strategy, the direct exclusive-world-access
implementation and the deferred closure-extension implementation
(`spawn_dynamic_bundle` with `my_dynamic_builder`, then flush) agree on
the observable result: the same new entity id and the same resulting
store. -/
theorem exclusive_and_deferred_agree (w : World) (strategy : ComponentStrategy) :
    (spawn_bundle_exclusive_world_access w strategy).1
        = (spawn_dynamic_bundle (Commands.mk w.nextId []).spawn_empty strategy
            my_dynamic_builder).id
    ∧ (spawn_bundle_exclusive_world_access w strategy).2.store
        = (flush (spawn_dynamic_bundle (Commands.mk w.nextId []).spawn_empty strategy
            my_dynamic_builder).cmds w.store).1 := by
  cases strategy <;> exact ⟨rfl, rfl⟩

/-- C10: `spawn_dynamic_bundle` performs no queue mutation of its own:
its resulting command state is exactly the applier's, and when the
applier appends nothing the pending queue is unchanged. -/
theorem spawn_dynamic_bundle_frame (Config : Type) (config : Config)
    (f : Config → EntityCommands → EntityCommands) (self : EntityCommands) :
    (spawn_dynamic_bundle self config f).cmds = (f config self).cmds
    ∧ ((f config self).cmds.queue = self.cmds.queue →
        (spawn_dynamic_bundle self config f).cmds.queue = self.cmds.queue) :=
  ⟨rfl, fun h => h⟩

theorem spawn_dynamic_bundle_frame_witness :
    (spawn_dynamic_bundle Commands.fresh.spawn_empty 0 fun _ ec => ec).cmds.queue
      = Commands.fresh.spawn_empty.cmds.queue :=
  (spawn_dynamic_bundle_frame Nat 0 (fun _ ec => ec) Commands.fresh.spawn_empty).2 rfl

/-- C5: flush applies the queued requests in exactly the order they were
appended, across entities interleaved as appended: on the request
sequence [attach(E1,A), attach(E2,B), attach(E1,B)] the flushed store is
the fold of the three requests in that exact order, and afterwards E1
holds {A, B} and E2 holds {B} only. -/
theorem flush_applies_in_append_order (E1 E2 p1 p2 p3 : Nat) (s : Store) (h : E1 ≠ E2) :
    (flush ⟨0, [.attach E1 .A p1, .attach E2 .B p2, .attach E1 .B p3]⟩ s).1
        = ((s.applyReq (.attach E1 .A p1)).applyReq (.attach E2 .B p2)).applyReq
            (.attach E1 .B p3)
    ∧ (flush ⟨0, [.attach E1 .A p1, .attach E2 .B p2, .attach E1 .B p3]⟩
        Store.empty).1.has_component E1 .A = true
    ∧ (flush ⟨0, [.attach E1 .A p1, .attach E2 .B p2, .attach E1 .B p3]⟩
        Store.empty).1.has_component E1 .B = true
    ∧ (flush ⟨0, [.attach E1 .A p1, .attach E2 .B p2, .attach E1 .B p3]⟩
        Store.empty).1.has_component E2 .B = true
    ∧ (flush ⟨0, [.attach E1 .A p1, .attach E2 .B p2, .attach E1 .B p3]⟩
        Store.empty).1.has_component E2 .A = false := by
  refine ⟨rfl, ?_, ?_, ?_, ?_⟩
  · show (((Store.empty.set_component E1 .A p1).set_component E2 .B p2).set_component E1 .B
        p3).has_component E1 .A = true
    unfold Store.has_component
    rw [get_component_set_other _ _ _ _ _ _ (by simp),
      get_component_set_other _ _ _ _ _ _ (by simp), get_component_set_same]
    rfl
  · show (((Store.empty.set_component E1 .A p1).set_component E2 .B p2).set_component E1 .B
        p3).has_component E1 .B = true
    unfold Store.has_component
    rw [get_component_set_same]
    rfl
  · show (((Store.empty.set_component E1 .A p1).set_component E2 .B p2).set_component E1 .B
        p3).has_component E2 .B = true
    unfold Store.has_component
    rw [get_component_set_other _ _ _ _ _ _ (by simp [h]), get_component_set_same]
    rfl
  · show (((Store.empty.set_component E1 .A p1).set_component E2 .B p2).set_component E1 .B
        p3).has_component E2 .A = false
    unfold Store.has_component
    rw [get_component_set_other _ _ _ _ _ _ (by simp),
      get_component_set_other _ _ _ _ _ _ (by simp),
      get_component_set_other _ _ _ _ _ _ (by simp [h])]
    rfl

theorem flush_applies_in_append_order_witness :
    (flush ⟨0, [.attach 0 .A 1, .attach 1 .B 2, .attach 0 .B 3]⟩
        Store.empty).1.has_component 0 ComponentKind.A = true :=
  (flush_applies_in_append_order 0 1 1 2 3 Store.empty (by decide)).2.1

/-- C8: whatever builds happen before and after it on the same queue, a
build with strategy S ends up, after flushing from the empty store, with
its own entity existing and carrying exactly the component set S implies —
independent of the other entities' strategies. -/
theorem each_entity_gets_its_own_strategy (pre post : List ComponentStrategy)
    (S : ComponentStrategy) :
    (flush (buildStrategies Commands.fresh (pre ++ S :: post)) Store.empty).1.has_entity
        pre.length = true
    ∧ (flush (buildStrategies Commands.fresh (pre ++ S :: post)) Store.empty).1.has_component
        pre.length ComponentKind.A = impliedA S
    ∧ (flush (buildStrategies Commands.fresh (pre ++ S :: post)) Store.empty).1.has_component
        pre.length ComponentKind.B = impliedB S := by
  have hq2 : (buildStrategies Commands.fresh (pre ++ S :: post)).queue
      = reqsFor 0 pre ++ ((Request.spawn pre.length :: attachReqs pre.length S)
          ++ reqsFor (pre.length + 1) post) := by
    rw [(buildStrategies_queue (pre ++ S :: post) Commands.fresh).1]
    show reqsFor 0 (pre ++ S :: post) = _
    rw [reqsFor_append]
    simp [reqsFor]
  refine ⟨?_, ?_, ?_⟩
  · unfold Store.has_entity
    show ((buildStrategies Commands.fresh (pre ++ S :: post)).queue.foldl Store.applyReq
        Store.empty).live.contains pre.length = true
    rw [live_foldl]
    have hmem := mem_spawnsOf_reqsFor (pre ++ S :: post) 0 pre.length (by simp)
    have hmem2 : pre.length ∈ spawnsOf ((buildStrategies Commands.fresh
        (pre ++ S :: post)).queue) := by
      rw [(buildStrategies_queue (pre ++ S :: post) Commands.fresh).1]
      show pre.length ∈ spawnsOf ([] ++ reqsFor 0 (pre ++ S :: post))
      simpa using hmem
    simpa [Store.empty] using hmem2
  · unfold Store.has_component
    show (((buildStrategies Commands.fresh (pre ++ S :: post)).queue.foldl Store.applyReq
        Store.empty).get_component pre.length ComponentKind.A).isSome = impliedA S
    rw [hq2, get_component_foldl, lastAttach_append, lastAttach_append,
      lastAttach_reqsFor_ge pre 0 pre.length ComponentKind.A (by omega),
      lastAttach_reqsFor_lt post (pre.length + 1) pre.length ComponentKind.A (by omega),
      lastAttach_own_segment_A]
    cases hS : impliedA S <;> simp [hS, Store.empty, Store.get_component]
  · unfold Store.has_component
    show (((buildStrategies Commands.fresh (pre ++ S :: post)).queue.foldl Store.applyReq
        Store.empty).get_component pre.length ComponentKind.B).isSome = impliedB S
    rw [hq2, get_component_foldl, lastAttach_append, lastAttach_append,
      lastAttach_reqsFor_ge pre 0 pre.length ComponentKind.B (by omega),
      lastAttach_reqsFor_lt post (pre.length + 1) pre.length ComponentKind.B (by omega),
      lastAttach_own_segment_B]
    cases hS : impliedB S <;> simp [hS, Store.empty, Store.get_component]
